import Mathlib

/-
Verification of the function-os TypeScript analyzer CLI.

The development shallowly embeds the analyzer's extraction and query logic
(src/src/cli.ts and the richer CLI variant src/unnamed/part_002) into Lean.
The external source-model provider (ts-morph) is out of scope of the
repository, so parsed files are modelled as explicit AST values exposing
exactly the accessors the analyzer reads: names, line numbers, parameter
data, return-type text and the flattened descendant stream that
`forEachDescendant` yields.  These values play the role of the parser's
output; all analyzer logic operating on them is translated from the source.
-/

set_option autoImplicit false

namespace FOS

/-! ## String helpers (models of the JavaScript string primitives used) -/

/-- Model of `String.prototype.startsWith` on character lists. -/
def startsWithList : List Char → List Char → Bool
  | _, [] => true
  | [], _ :: _ => false
  | a :: as, b :: bs => a == b && startsWithList as bs

/-- Model of `String.prototype.includes` on character lists. -/
def containsSub : List Char → List Char → Bool
  | [], needle => startsWithList [] needle
  | c :: t, needle => startsWithList (c :: t) needle || containsSub t needle

/-- Model of `String.prototype.includes`. -/
def strIncludes (hay needle : String) : Bool :=
  containsSub hay.toList needle.toList

/-- Model of `String.prototype.toLowerCase` (ASCII, as used on identifiers). -/
def lowerStr (s : String) : String :=
  String.mk (s.toList.map Char.toLower)

/-- Model of `String.prototype.endsWith`. -/
def strEndsWith (s suffix : String) : Bool :=
  startsWithList s.toList.reverse suffix.toList.reverse

/-- Model of node's `path.basename` for slash-separated paths: the
characters after the last `/` (the whole path when it has none). -/
def basename (p : String) : String :=
  String.mk (p.toList.foldl (fun acc c => if c == '/' then [] else acc ++ [c]) [])

/-- Model of `.replace(/['"]/g, '')`: drop every quote character. -/
def stripQuoteChars (s : String) : String :=
  String.mk (s.toList.filter (fun c => !(c == '\'' || c == '\"')))

/-! ## Model of `cleanType` (cli.ts:350-361, part_002:436-447)

The source applies four regex rewrites and a length truncation to type
text.  The rewrites are reproduced here as explicit string scanners with
the same semantics as the ECMAScript regexes used. -/

/-- Scanner for the tail of a `/import\([^)]+\)\./` match: consumes one or
more non-`)` characters, then requires `).`; returns the remainder. -/
def importTailMatch (cs : List Char) : Option (List Char) :=
  match cs with
  | [] => none
  | c :: rest =>
    if c == ')' then
      match rest with
      | d :: rem => if d == '.' then some rem else none
      | [] => none
    else importTailMatch rest

theorem importTailMatch_length_lt (cs : List Char) :
    ∀ rest, importTailMatch cs = some rest → rest.length < cs.length := by
  induction cs with
  | nil => intro rest h; simp [importTailMatch] at h
  | cons c t ih =>
    intro rest h
    rw [importTailMatch.eq_def] at h
    simp only [] at h
    by_cases hc : (c == ')') = true
    · rw [if_pos hc] at h
      cases t with
      | nil => simp at h
      | cons d rem =>
        by_cases hd : (d == '.') = true
        · simp only [hd, if_true, Option.some.injEq] at h
          subst h
          simp
          omega
        · simp only [hd] at h
          simp at h
    · rw [if_neg hc] at h
      exact Nat.lt_succ_of_lt (ih rest h)

/-- Model of `.replace(/import\([^)]+\)\./g, '')`: remove every
`import(...).` qualifier, scanning left to right. -/
def stripImportQualifiers : List Char → List Char
  | [] => []
  | c :: rest =>
    if startsWithList (c :: rest) "import(".toList then
      match h : importTailMatch ((c :: rest).drop 7) with
      | some rem =>
        have : rem.length < rest.length + 1 := by
          have h1 := importTailMatch_length_lt _ _ h
          have h2 : ((c :: rest).drop 7).length ≤ rest.length + 1 := by
            simp only [List.length_drop, List.length_cons]
            omega
          omega
        stripImportQualifiers rem
      | none => c :: stripImportQualifiers rest
    else
      c :: stripImportQualifiers rest
termination_by cs => cs.length

/-- Index of the first occurrence of `needle` in `hay`, if any. -/
def findSubIndex : List Char → List Char → Option Nat
  | [], needle => if startsWithList [] needle then some 0 else none
  | c :: t, needle =>
    if startsWithList (c :: t) needle then some 0
    else (findSubIndex t needle).map (· + 1)

/-- Model of `.replace(pat, repl)` for a literal pattern, first occurrence only. -/
def replaceFirst (s pat repl : String) : String :=
  match findSubIndex s.toList pat.toList with
  | none => s
  | some i =>
    String.mk (s.toList.take i ++ repl.toList ++ s.toList.drop (i + pat.length))

/-- Index of the last occurrence of `c` in `l`, if any. -/
def lastIndexOfChar (l : List Char) (c : Char) : Option Nat :=
  (findSubIndex l.reverse [c]).map (fun i => l.length - 1 - i)

/-- Model of `.replace(/React\.FC<(.+)>/, 'FC<$1>')`: the greedy `(.+)`
captures up to the last `>` after the first viable `React.FC<`. -/
def replaceReactFC (s : String) : String :=
  match findSubIndex s.toList "React.FC<".toList with
  | none => s
  | some i =>
    let before := s.toList.take i
    let after := s.toList.drop (i + 9)
    match lastIndexOfChar after '>' with
    | none => s
    | some j =>
      if j = 0 then s
      else String.mk (before ++ "FC<".toList ++ after.take j ++ ['>'] ++ after.drop (j + 1))

/-- Model of `cleanType` (part_002:436-447, cli.ts:350-361): strip
`import(...)`. qualifiers, shorten three React type spellings, and truncate
text longer than 100 characters to 97 characters plus `...`. -/
def cleanType (typeStr : String) : String :=
  let t1 := String.mk (stripImportQualifiers typeStr.toList)
  let t2 := replaceReactFC t1
  let t3 := replaceFirst t2 "React.ReactElement" "ReactElement"
  let t4 := replaceFirst t3 "React.ReactNode" "ReactNode"
  if t4.length > 100 then String.mk (t4.toList.take 97) ++ "..." else t4

/-! ## AST model (output of the external source-model provider) -/

/-- Shape of a call expression's callee, as the analyzer discriminates it
(part_002:455-475): the dynamic-import keyword, a bare identifier, a
property access (whose receiver may or may not itself be an identifier),
or anything else. -/
inductive Callee where
  | keywordImport
  | ident (text : String)
  | propAccess (objIdent : Option String) (propName : String)
  | otherCallee
deriving Repr, DecidableEq

/-- A call expression: its callee shape and the source text of its arguments. -/
structure CallExprAst where
  callee : Callee
  args : List String
deriving Repr, DecidableEq

/-- One node of the flattened descendant stream that `forEachDescendant`
yields over a function body; only the kinds the analyzer inspects are
distinguished. -/
inductive DescNode where
  | ifStatement
  | conditionalExpression
  | forStatement
  | whileStatement
  | doStatement
  | caseClause
  | callExpression (call : CallExprAst)
  | otherNode
deriving Repr, DecidableEq

/-- A parameter as exposed by the parser: name, (raw) type text, optional
flag, and initializer text when present. -/
structure AstParam where
  name : String
  typeText : String
  optional : Bool
  defaultText : Option String
deriving Repr, DecidableEq

/-- A function-like AST node as the analyzer reads it.  `getName = none`
models a node with no `getName` method at all (e.g. a constructor
declaration), which the source maps to the placeholder `'anonymous'`.
`body` is the descendant stream of `node.getBody()` (or of the node itself
when it has no body accessor). -/
structure AstNode where
  getName : Option String
  startLine : Nat
  endLine : Nat
  isAsync : Bool
  isExported : Bool
  params : List AstParam
  returnTypeText : Option String
  body : List DescNode
deriving Repr, DecidableEq

/-- Initializer of a variable declaration, as far as the analyzer
discriminates it (part_002:318-323): an arrow function, a function
expression, an object literal (with named properties), or anything else. -/
inductive InitAst where
  | arrowFunction (fn : AstNode)
  | functionExpression (fn : AstNode)
  | objectLiteral (props : List (String × InitAst))
  | otherInit

/-- A variable declaration: its declaration node and its initializer. -/
structure VarDeclAst where
  node : AstNode
  init : Option InitAst

/-- A class declaration: name (possibly absent) and its member nodes. -/
structure ClassDeclAst where
  name : Option String
  constructorDecls : List AstNode
  methods : List AstNode
  getters : List AstNode
  setters : List AstNode
deriving Repr, DecidableEq

/-- A parsed source file, exposing the declaration lists the analyzer
iterates (part_002:309-349). -/
structure SourceFileAst where
  functions : List AstNode
  variableDecls : List VarDeclAst
  classes : List ClassDeclAst

/-! ## Data model: `FunctionInfo` (part_002:20-40) -/

/-- A discovered function record, mirroring the `FunctionInfo` interface. -/
structure FunctionInfo where
  id : String
  name : String
  type : String
  className : Option String
  filePath : String
  line : Nat
  endLine : Nat
  size : Nat
  async : Bool
  exported : Bool
  params : List AstParam
  returnType : String
  calls : List String
  complexity : Nat
deriving Repr, DecidableEq

/-! ## Call extraction (`extractCalls`, part_002:450-480) -/

/-- JavaScript `Set.add` on an insertion-ordered list. -/
def setAdd (l : List String) (s : String) : List String :=
  if l.contains s then l else l ++ [s]

/-- Processing of one descendant by the `extractCalls` walk: the
dynamic-import branch, the bare-identifier branch, and the `obj.method` branch
(receiver must itself be an identifier); all other shapes are skipped. -/
def extractCallsStep (acc : List String) (d : DescNode) : List String :=
  match d with
  | .callExpression c =>
    match c.callee with
    | .keywordImport =>
      match c.args with
      | [] => acc
      | a :: _ => setAdd acc ("import(" ++ stripQuoteChars a ++ ")")
    | .ident text => setAdd acc text
    | .propAccess objIdent propName =>
      match objIdent with
      | some objText => setAdd acc (objText ++ "." ++ propName)
      | none => acc
    | .otherCallee => acc
  | _ => acc

/-- Model of `extractCalls`: walk the body's descendant stream collecting
call references into an insertion-ordered set. -/
def extractCalls (body : List DescNode) : List String :=
  body.foldl extractCallsStep []

/-! ## Complexity -/

/-- Whether a descendant is one of the branching constructs counted by
`calculateComplexity` (cli.ts:397-415). -/
def isBranching (d : DescNode) : Bool :=
  match d with
  | .ifStatement | .conditionalExpression | .forStatement
  | .whileStatement | .doStatement | .caseClause => true
  | _ => false

/-- Model of `calculateComplexity` (cli.ts:397-415): start at 1 and add one
per branching descendant anywhere in the body. -/
def calculateComplexity (body : List DescNode) : Nat :=
  body.foldl (fun complexity d => if isBranching d then complexity + 1 else complexity) 1

/-! ## Record extraction (`extractFunctionData`, part_002:385-433) -/

/-- Parameter extraction: name, cleaned type text, optional flag,
initializer text (part_002:396-406). -/
def extractParams (funcNode : AstNode) : List AstParam :=
  funcNode.params.map (fun p =>
    { name := p.name
      typeText := cleanType p.typeText
      optional := p.optional
      defaultText := p.defaultText })

/-- Model of `extractFunctionData` in the part_002 variant: name falls back
to `'anonymous'` when the node exposes no `getName`; parameters, return
type, calls and async come from `arrowFunc || node`; lines, size and
export status come from the declaration node itself; complexity is
`calls.length + floor((endLine - startLine) / 10)` over the declaration
node's line span. -/
def extractFunctionData (node : AstNode) (filePath : String) (type : String)
    (arrowFunc : Option AstNode) (className : Option String) : FunctionInfo :=
  let name := node.getName.getD "anonymous"
  let funcNode := arrowFunc.getD node
  let params := extractParams funcNode
  let returnType := cleanType (funcNode.returnTypeText.getD "void")
  let calls := extractCalls funcNode.body
  let complexity := calls.length + (node.endLine - node.startLine) / 10
  { id :=
      match className with
      | some cn => filePath ++ ":" ++ cn ++ "." ++ name
      | none => filePath ++ ":" ++ name
    name := name
    type := type
    className := className
    filePath := filePath
    line := node.startLine
    endLine := node.endLine
    size := node.endLine - node.startLine + 1
    async := funcNode.isAsync
    exported := node.isExported
    params := params
    returnType := returnType
    calls := calls
    complexity := complexity }

/-- Model of `extractFunctionData` in the cli.ts variant, which differs
only in computing complexity with `calculateComplexity` over the function
node's body (cli.ts:293-347; the extra `isComponent`/`purpose` fields are
presentation-only and omitted from the shared record type). -/
def extractFunctionDataV1 (node : AstNode) (filePath : String) (type : String)
    (arrowFunc : Option AstNode) (className : Option String) : FunctionInfo :=
  let base := extractFunctionData node filePath type arrowFunc className
  let funcNode := arrowFunc.getD node
  { base with complexity := calculateComplexity funcNode.body }

/-- Model of `extractFunctions` (part_002:309-349, cli.ts:251-291): regular
function declarations, then variable declarations whose initializer is an
arrow function or function expression (under the binding's name), then
class constructors, methods, getters and setters.  No other construct is
visited; in particular object-literal initializers are not traversed. -/
def extractFunctions (sf : SourceFileAst) (filePath : String) : List FunctionInfo :=
  (sf.functions.map (fun f => extractFunctionData f filePath "function" none none))
    ++ (sf.variableDecls.filterMap (fun v =>
        match v.init with
        | some (.arrowFunction fn) =>
          some (extractFunctionData v.node filePath "arrow" (some fn) none)
        | some (.functionExpression fn) =>
          some (extractFunctionData v.node filePath "arrow" (some fn) none)
        | _ => none))
    ++ (sf.classes.flatMap (fun c =>
        (c.constructorDecls.map (fun k =>
            extractFunctionData k filePath "constructor" none c.name))
          ++ (c.methods.map (fun m => extractFunctionData m filePath "method" none c.name))
          ++ (c.getters.map (fun g => extractFunctionData g filePath "getter" none c.name))
          ++ (c.setters.map (fun s => extractFunctionData s filePath "setter" none c.name))))

/-! ## Function registry

The global `functions` store is a JavaScript `Map<string, FunctionInfo>`;
it is modelled as an insertion-ordered association list with `Map.set`
semantics. -/

/-- The registry state: insertion-ordered id/record pairs. -/
abbrev Registry := List (String × FunctionInfo)

/-- Model of JavaScript `Map.set`: overwrite in place when the key exists,
append otherwise. -/
def mapSet (m : Registry) (k : String) (v : FunctionInfo) : Registry :=
  if m.any (fun p => p.1 == k) then
    m.map (fun p => if p.1 == k then (k, v) else p)
  else m ++ [(k, v)]

/-- Model of `Array.from(functions.values())`. -/
def functionsValues (reg : Registry) : List FunctionInfo :=
  reg.map Prod.snd

/-- Model of the registry invariant maintained by `analyze`: a `Map` never
holds two entries with the same key. -/
def nodupKeys (reg : Registry) : Prop :=
  (reg.map Prod.fst).Nodup

instance (reg : Registry) : Decidable (nodupKeys reg) :=
  inferInstanceAs (Decidable ((reg.map Prod.fst).Nodup))

/-- Lookup used by `info`, `deps`, `callers`, `flow`, `read`, `ai`
(e.g. part_002:1073-1075): first record whose name equals the query or
whose id ends in `:query`. -/
def findByNameOrId (reg : Registry) (q : String) : Option FunctionInfo :=
  (functionsValues reg).find? (fun f => f.name == q || strEndsWith f.id (":" ++ q))

/-- Lookup by exact name, first match in discovery order
(`Array.from(functions.values()).find(f => f.name === call)`). -/
def findByNameExact (reg : Registry) (n : String) : Option FunctionInfo :=
  (functionsValues reg).find? (fun f => f.name == n)

/-- Model of the project-internal call filter used by `deps`, `flow`,
`graph` and `analyze` (part_002:647-649, 1097-1099, 1149-1151):
keep exactly the callee names for which some registry record has that name. -/
def projectCallsOf (reg : Registry) (f : FunctionInfo) : List String :=
  f.calls.filter (fun call => ((functionsValues reg).find? (fun g => g.name == call)).isSome)

/-- Model of `findCallers` (part_002:1037-1045): every record whose `calls`
contains the name. -/
def findCallers (reg : Registry) (funcName : String) : List FunctionInfo :=
  (functionsValues reg).filter (fun f => f.calls.contains funcName)

/-! ## `list` and `find` (part_002:486-534, 592-630) -/

/-- Options consumed by `cmdList` in the part_002 variant. -/
structure ListOptions where
  exports : Bool
  module : Option String

/-- The records `cmdList` displays: the registry's values after the
`exports` and `module` filters (part_002:489-497); the subsequent grouping
by directory only reorders the presentation. -/
def cmdListFiltered (reg : Registry) (o : ListOptions) : List FunctionInfo :=
  let filtered := functionsValues reg
  let filtered := if o.exports then filtered.filter (fun f => f.exported) else filtered
  match o.module with
  | some m => filtered.filter (fun f => strIncludes f.filePath m)
  | none => filtered

/-- The external ECMAScript regex engine, visible to the analyzer only as
`new RegExp(pattern, 'i')` (which either compiles to a `test` predicate or
throws) — a black box consumed by `cmdFind`. -/
structure RegexEngine where
  compile : String → Option (String → Bool)

/-- Model of restoring the global map: `functions.clear()` followed by
`originalFunctions.forEach((func, id) => functions.set(id, func))`. -/
def restoreAll (original : Registry) : Registry :=
  original.foldl (fun acc p => mapSet acc p.1 p.2) []

/-- Result of a `find` invocation: whether the invalid-regex warning was
printed, and the records displayed. -/
structure FindResult where
  warned : Bool
  displayed : List FunctionInfo
deriving DecidableEq

/-- Model of `cmdFind` (part_002:592-630): copy the registry aside and
clear it; if the pattern compiles (flag `i`), refill with the regex
matches, else warn and refill with case-insensitive substring matches;
display via `cmdList`; finally clear and restore the original entries.
Returns the displayed output and the final registry state. -/
def cmdFind (engine : RegexEngine) (reg : Registry) (pattern : String) :
    FindResult × Registry :=
  let originalFunctions := reg
  match engine.compile pattern with
  | none =>
    let filtered := originalFunctions.foldl
      (fun acc p =>
        if strIncludes (lowerStr p.2.name) (lowerStr pattern) then mapSet acc p.1 p.2 else acc)
      []
    let out := { warned := true
                 displayed := cmdListFiltered filtered { exports := false, module := none } }
    (out, restoreAll originalFunctions)
  | some test =>
    let filtered := originalFunctions.foldl
      (fun acc p => if test p.2.name then mapSet acc p.1 p.2 else acc) []
    let out := { warned := false
                 displayed := cmdListFiltered filtered { exports := false, module := none } }
    (out, restoreAll originalFunctions)

/-- Model of the cli.ts variant of `cmdFind` (cli.ts:540-559), which always
uses case-insensitive substring matching. -/
def cmdFindV1 (reg : Registry) (pattern : String) : FindResult × Registry :=
  let originalFunctions := reg
  let filtered := originalFunctions.foldl
    (fun acc p =>
      if strIncludes (lowerStr p.2.name) (lowerStr pattern) then mapSet acc p.1 p.2 else acc)
    []
  ({ warned := false
     displayed := cmdListFiltered filtered { exports := false, module := none } },
   restoreAll originalFunctions)

/-! ## `flow` (part_002:1072-1115) -/

/-- One printed line of the `flow` trace. -/
inductive FlowEvent where
  | circular (pre : String) (name : String)
  | node (pre : String) (name : String) (file : String) (line : Nat)
  | edge (pre : String) (connector : String) (callName : String)
deriving Repr, DecidableEq

/-- Model of `traceFlow` (part_002:1086-1112): a name already on the
current path is reported as circular and not re-expanded; past the depth
bound nothing is emitted; otherwise the node is printed and each
project-internal callee is recursed into, each child receiving a copy
(`new Set(visited)`) of the path-so-far, so the visited set is per-path
rather than global.

The source recursion carries the pair (`depth`, `currentDepth`), stops
once `currentDepth > depth`, and increments `currentDepth` on every
recursive call; the pair is represented here by the remaining budget
`depth + 1 - currentDepth` (all reachable states have
`currentDepth ≤ depth + 1`), so the guard `currentDepth > depth` is
`budget = 0` and each recursive call decrements the budget — the same
function, indexed so the recursion is structural. -/
def traceFlow (reg : Registry) (currentFunc : FunctionInfo) (budget : Nat)
    (visited : List String) (pre : String) : List FlowEvent :=
  match budget with
  | 0 => if visited.contains currentFunc.name then [.circular pre currentFunc.name] else []
  | b + 1 =>
    if visited.contains currentFunc.name then [.circular pre currentFunc.name]
    else
      let visited' := visited ++ [currentFunc.name]
      let projectCalls := projectCallsOf reg currentFunc
      [FlowEvent.node pre currentFunc.name (basename currentFunc.filePath) currentFunc.line]
        ++ projectCalls.enum.flatMap (fun ic =>
          match findByNameExact reg ic.2 with
          | some calledFunc =>
            let isLast := ic.1 == projectCalls.length - 1
            let newPre := pre ++ (if isLast then "  " else "│ ")
            let connector := if isLast then "└→" else "├→"
            FlowEvent.edge pre connector ic.2
              :: traceFlow reg calledFunc b visited' newPre
          | none => [])

/-- Model of `cmdFlow`: resolve the start function (name or id suffix) and
trace from `currentDepth = 0` — budget `depth + 1` — with an empty path;
`none` is the "not found" outcome.  The `--depth` option is taken already
parsed (argument parsing is CLI glue outside the core; the source default
is 3). -/
def cmdFlow (reg : Registry) (funcName : String) (depth : Nat) :
    Option (List FlowEvent) :=
  match findByNameOrId reg funcName with
  | none => none
  | some func => some (traceFlow reg func (depth + 1) [] "")

/-! ## `analyze` connected components (part_002:788-880, cli.ts:776-868) -/

/-- Insertion-ordered deduplication (JavaScript `Set` built by repeated `add`). -/
def dedupe (l : List String) : List String :=
  l.foldl setAdd []

/-- The project-internal edge list in construction order: for each record,
for each call resolving to some record's name, the edge
`(caller name, callee name)` (part_002:803-811). -/
def projectEdges (reg : Registry) : List (String × String) :=
  (functionsValues reg).flatMap (fun f => (projectCallsOf reg f).map (fun c => (f.name, c)))

/-- The adjacency set `graph.get(n)` after edge construction. -/
def successors (reg : Registry) (n : String) : List String :=
  dedupe ((projectEdges reg).filterMap (fun e => if e.1 == n then some e.2 else none))

/-- The adjacency set `reverseGraph.get(n)` after edge construction. -/
def predecessors (reg : Registry) (n : String) : List String :=
  dedupe ((projectEdges reg).filterMap (fun e => if e.2 == n then some e.1 else none))

/-- Model of the `dfs` closure (part_002:817-826): mark the node visited,
append it to the component, then recurse into its successors and
predecessors.  The fuel argument bounds the recursion depth for the
embedding; `cmdAnalyzeComponents` passes one more than the number of graph
nodes, which exceeds any simple path and so never runs out, since every
nested call consumes an unvisited node on the current path. -/
def dfsAux (reg : Registry) (fuel : Nat) (node : String)
    (visited component : List String) : List String × List String :=
  match fuel with
  | 0 => (visited, component)
  | fuel + 1 =>
    if visited.contains node then (visited, component)
    else
      let visited := visited ++ [node]
      let component := component ++ [node]
      let st := (successors reg node).foldl
        (fun (st : List String × List String) child => dfsAux reg fuel child st.1 st.2)
        (visited, component)
      (predecessors reg node).foldl
        (fun (st : List String × List String) parent => dfsAux reg fuel parent st.1 st.2)
        st

/-- Stable sort of components by descending size
(`components.sort((a, b) => b.length - a.length)`). -/
def sortBySizeDesc (comps : List (List String)) : List (List String) :=
  comps.foldl (fun acc c =>
    (acc.takeWhile (fun d => c.length ≤ d.length)) ++ [c]
      ++ (acc.dropWhile (fun d => c.length ≤ d.length))) []

/-- Model of the dependency-graph half of `cmdAnalyze` (part_002:792-880):
seed a DFS from every not-yet-visited record name, keep the components of
size greater than one sorted by descending size, and compute
`isolatedCount` exactly as the source does — `functions.size` minus the
number of visited names. -/
def cmdAnalyzeComponents (reg : Registry) : List (List String) × Nat :=
  let names := dedupe ((functionsValues reg).map (fun f => f.name))
  let fuel := names.length + 1
  let st := (functionsValues reg).foldl
    (fun (st : List String × List (List String)) func =>
      if st.1.contains func.name then st
      else
        let vc := dfsAux reg fuel func.name st.1 []
        if vc.2.length > 1 then (vc.1, st.2 ++ [vc.2]) else (vc.1, st.2))
    ([], [])
  (sortBySizeDesc st.2, (functionsValues reg).length - st.1.length)

/-! ## Fixtures -/

/-- A minimal registry record for registry-level fixtures. -/
def mkFn (name : String) (filePath : String) (line endLine : Nat)
    (calls : List String) : FunctionInfo :=
  { id := filePath ++ ":" ++ name
    name := name
    type := "function"
    className := none
    filePath := filePath
    line := line
    endLine := endLine
    size := endLine - line + 1
    async := false
    exported := false
    params := []
    returnType := "void"
    calls := calls
    complexity := calls.length + (endLine - line) / 10 }

/-- Fixture for the components analysis: `a → b → c` plus isolated `d`
(`d` calls only the external name `console.log`). -/
def regComponentsFixture : Registry :=
  [("src/g.ts:a", mkFn "a" "src/g.ts" 1 2 ["b"]),
   ("src/g.ts:b", mkFn "b" "src/g.ts" 4 5 ["c"]),
   ("src/g.ts:c", mkFn "c" "src/g.ts" 7 8 []),
   ("src/g.ts:d", mkFn "d" "src/g.ts" 10 11 ["console.log"])]

/-- The record `a` of the cycle fixture. -/
def aCycFn : FunctionInfo := mkFn "a" "src/f.ts" 1 3 ["b"]

/-- The record `b` of the cycle fixture. -/
def bCycFn : FunctionInfo := mkFn "b" "src/f.ts" 5 7 ["a"]

/-- Fixture for flow tracing on a true cycle: `a → b → a`. -/
def regCycleFixture : Registry :=
  [("src/f.ts:a", aCycFn), ("src/f.ts:b", bCycFn)]

/-- Fixture for flow tracing on a diamond: `a → b → d`, `a → c → d`. -/
def regDiamondFixture : Registry :=
  [("src/f.ts:a", mkFn "a" "src/f.ts" 1 3 ["b", "c"]),
   ("src/f.ts:b", mkFn "b" "src/f.ts" 5 7 ["d"]),
   ("src/f.ts:c", mkFn "c" "src/f.ts" 9 11 ["d"]),
   ("src/f.ts:d", mkFn "d" "src/f.ts" 13 15 [])]

/-- Record fixtures for `find`: the three hook-like names of the spec's test. -/
def useAuthFn : FunctionInfo := mkFn "useAuth" "src/h.ts" 1 3 []

/-- Second matching record of the `find` fixture. -/
def useFormFn : FunctionInfo := mkFn "useForm" "src/h.ts" 5 7 []

/-- The capitalised record of the `find` fixture. -/
def usekeyFn : FunctionInfo := mkFn "Usekey" "src/h.ts" 9 11 []

/-- Fixture for `find`: the three hook-like names of the spec's test. -/
def regFindFixture : Registry :=
  [("src/h.ts:useAuth", useAuthFn),
   ("src/h.ts:useForm", useFormFn),
   ("src/h.ts:Usekey", usekeyFn)]

/-- The record `alpha` of the dependency fixture: it calls the project
function `beta` and the external library function `fetch`. -/
def alphaFn : FunctionInfo := mkFn "alpha" "src/d.ts" 1 4 ["beta", "fetch"]

/-- Fixture for `projectCallsOf`: `alpha` plus its project callee `beta`. -/
def regDepsFixture : Registry :=
  [("src/d.ts:alpha", alphaFn),
   ("src/d.ts:beta", mkFn "beta" "src/d.ts" 6 8 [])]

/-- Model of the external ECMAScript regex engine at the call site
`new RegExp(pattern, 'i')`, on the pattern fragment these fixtures
exercise: an optional leading `^` anchor followed by literal alphanumeric
characters.  Such a pattern compiles, and its `test` accepts a string in
which the literal occurs at the start (anchored) or anywhere (unanchored),
compared case-insensitively per the `i` flag.  A pattern outside this
fragment — such as the unbalanced `(`, which ECMAScript rejects with a
SyntaxError — is reported as failing to compile. -/
def jsRegexICompile (pattern : String) : Option (String → Bool) :=
  let anchored := match pattern.toList with
    | '^' :: _ => true
    | _ => false
  let lit := if anchored then pattern.toList.tail else pattern.toList
  if lit.all (fun c => c.isAlphanum) then
    some (fun s =>
      if anchored then startsWithList (lowerStr s).toList (lit.map Char.toLower)
      else containsSub (lowerStr s).toList (lit.map Char.toLower))
  else none

/-- The regex-engine black box instantiated with the ECMAScript model. -/
def jsRegexEngineI : RegexEngine := ⟨jsRegexICompile⟩

/-! ## Extraction fixtures -/

/-- An arrow-function node sitting as a property value inside an object
literal. -/
def handlerArrowNode : AstNode :=
  { getName := none
    startLine := 2
    endLine := 4
    isAsync := false
    isExported := false
    params := []
    returnTypeText := some "void"
    body := [] }

/-- The declaration node of `const config = { handler: () => { ... } }`. -/
def configVarNode : AstNode :=
  { getName := some "config"
    startLine := 1
    endLine := 5
    isAsync := false
    isExported := false
    params := []
    returnTypeText := none
    body := [] }

/-- A source file whose only declaration is an object-literal binding with
a function-valued property: `const config = { handler: () => { ... } }`. -/
def configObjectFixture : SourceFileAst :=
  { functions := []
    variableDecls :=
      [{ node := configVarNode
         init := some (.objectLiteral [("handler", .arrowFunction handlerArrowNode)]) }]
    classes := [] }

/-- A constructor declaration node: constructors expose no `getName`. -/
def widgetCtorNode : AstNode :=
  { getName := none
    startLine := 3
    endLine := 6
    isAsync := false
    isExported := false
    params := []
    returnTypeText := some "Widget"
    body := [] }

/-- A source file containing one class with one constructor. -/
def widgetClassFixture : SourceFileAst :=
  { functions := []
    variableDecls := []
    classes :=
      [{ name := some "Widget"
         constructorDecls := [widgetCtorNode]
         methods := []
         getters := []
         setters := [] }] }

/-- A two-line function with no calls and no branching: the part_002
complexity formula yields `0 + floor(1 / 10) = 0` on it. -/
def tinyFnNode : AstNode :=
  { getName := some "tiny"
    startLine := 1
    endLine := 2
    isAsync := false
    isExported := false
    params := []
    returnTypeText := some "void"
    body := [DescNode.otherNode] }

/-- A one-function source file used as the extraction witness. -/
def tinyFixture : SourceFileAst :=
  { functions := [tinyFnNode]
    variableDecls := []
    classes := [] }

/-! ## Registry lemmas -/

theorem mapSet_of_not_mem (m : Registry) (k : String) (v : FunctionInfo)
    (h : k ∉ m.map Prod.fst) : mapSet m k v = m ++ [(k, v)] := by
  unfold mapSet
  have hany : m.any (fun p => p.1 == k) = false := by
    simp only [List.any_eq_false, beq_iff_eq]
    intro p hp hpk
    exact h (hpk ▸ List.mem_map_of_mem Prod.fst hp)
  simp [hany]

theorem foldl_mapSet_filter (q : String × FunctionInfo → Bool) :
    ∀ (reg acc : Registry), (∀ p ∈ reg, p.1 ∉ acc.map Prod.fst) → nodupKeys reg →
      reg.foldl (fun a p => if q p then mapSet a p.1 p.2 else a) acc = acc ++ reg.filter q := by
  intro reg
  induction reg with
  | nil => intro acc _ _; simp
  | cons p t ih =>
    intro acc hdisj hnd
    have hnd0 := List.nodup_cons.mp hnd
    have hnd' : nodupKeys t := hnd0.2
    have hp1 : p.1 ∉ t.map Prod.fst := hnd0.1
    have hdisj' : ∀ r ∈ t, r.1 ∉ (acc ++ [(p.1, p.2)]).map Prod.fst := by
      intro r hr
      simp only [List.map_append, List.mem_append, List.map_cons, List.map_nil,
        List.mem_singleton, not_or]
      refine ⟨hdisj r (List.mem_cons_of_mem _ hr), ?_⟩
      intro hmem
      exact hp1 (hmem ▸ List.mem_map_of_mem Prod.fst hr)
    by_cases hq : q p = true
    · rw [List.foldl_cons]
      simp only [hq, if_true]
      rw [mapSet_of_not_mem _ _ _ (hdisj p (List.mem_cons_self p t))]
      rw [ih (acc ++ [(p.1, p.2)]) hdisj' hnd']
      simp [List.filter_cons, hq]
    · rw [List.foldl_cons]
      simp only [hq]
      rw [if_neg (by simp [hq])]
      rw [ih acc (fun r hr => hdisj r (List.mem_cons_of_mem _ hr)) hnd']
      simp [List.filter_cons, hq]

theorem foldl_mapSet_append :
    ∀ (reg acc : Registry), (∀ p ∈ reg, p.1 ∉ acc.map Prod.fst) → nodupKeys reg →
      reg.foldl (fun a p => mapSet a p.1 p.2) acc = acc ++ reg := by
  intro reg
  induction reg with
  | nil => intro acc _ _; simp
  | cons p t ih =>
    intro acc hdisj hnd
    have hnd0 := List.nodup_cons.mp hnd
    have hdisj' : ∀ r ∈ t, r.1 ∉ (acc ++ [(p.1, p.2)]).map Prod.fst := by
      intro r hr
      simp only [List.map_append, List.mem_append, List.map_cons, List.map_nil,
        List.mem_singleton, not_or]
      refine ⟨hdisj r (List.mem_cons_of_mem _ hr), ?_⟩
      intro hmem
      exact hnd0.1 (hmem ▸ List.mem_map_of_mem Prod.fst hr)
    rw [List.foldl_cons]
    rw [mapSet_of_not_mem _ _ _ (hdisj p (List.mem_cons_self p t))]
    rw [ih (acc ++ [(p.1, p.2)]) hdisj' hnd0.2]
    simp

theorem restoreAll_eq_self (reg : Registry) (hk : nodupKeys reg) : restoreAll reg = reg := by
  have h := foldl_mapSet_append reg [] (by simp) hk
  simpa [restoreAll] using h

theorem functionsValues_filter (reg : Registry) (pred : FunctionInfo → Bool) :
    functionsValues (reg.filter (fun p => pred p.2)) = (functionsValues reg).filter pred := by
  unfold functionsValues
  induction reg with
  | nil => rfl
  | cons p t ih =>
    by_cases h : pred p.2 = true <;> simp [List.filter_cons, h, ih]

theorem le_foldl_complexity (l : List DescNode) :
    ∀ n : Nat,
      n ≤ l.foldl (fun complexity d => if isBranching d then complexity + 1 else complexity) n := by
  induction l with
  | nil => intro n; simp
  | cons d t ih =>
    intro n
    rw [List.foldl_cons]
    refine le_trans ?_ (ih _)
    by_cases hd : isBranching d = true <;> simp [hd]

theorem extractFunctionData_lineFields (node : AstNode) (fp ty : String)
    (af : Option AstNode) (cls : Option String) :
    (extractFunctionData node fp ty af cls).line = node.startLine ∧
    (extractFunctionData node fp ty af cls).endLine = node.endLine ∧
    (extractFunctionData node fp ty af cls).size = node.endLine - node.startLine + 1 := by
  refine ⟨rfl, rfl, rfl⟩

/-! ## Claim C1 -/

/-- C1: evaluation at the failing input.  On the registry `a → b → c` with
isolated `d`, the connected-components analysis reports exactly one
dependency group `{a, b, c}` of size 3, but the isolated-function count the
code computes is `functions.size - visited.size = 0`, not 1: the DFS seed
loop visits every node, including the singleton `d`, so the subtraction
never counts edge-free functions and the source prints no isolated-function
line at all, contradicting its own output label
`"isolated functions (no dependencies)"`. -/
theorem C1_analyze_components_fixture :
    cmdAnalyzeComponents regComponentsFixture = ([["a", "b", "c"]], 0) := by
  decide

/-! ## Claim C2 -/

/-- C2 counterexample: for the file `const config = { handler: () => ... }`
the extractor emits no record at all — in particular none synthesized from
the property name `handler` — because object-literal initializers are never
traversed (part_002:318-323 matches only arrow functions and function
expressions as initializers). -/
theorem C2_property_function_not_extracted :
    ¬ ∃ r ∈ extractFunctions configObjectFixture "src/config.ts", r.name = "handler" := by
  decide

/-- Whether a variable initializer is an arrow function or a function
expression — the only initializer shapes `extractFunctions` extracts. -/
def isFunctionInit : Option InitAst → Bool
  | some (.arrowFunction _) => true
  | some (.functionExpression _) => true
  | _ => false

/-- C2 amended: a variable binding whose initializer is not itself an arrow
function or function expression (e.g. an object literal with
function-valued properties) contributes no FunctionRecord; in a file with
no function and no class declarations, extraction emits nothing, so
property-assigned functions inside object literals are never emitted and no
enclosing-scope record for them exists. -/
theorem C2_object_literal_bindings_yield_nothing (sf : SourceFileAst) (fp : String)
    (hf : sf.functions = []) (hc : sf.classes = [])
    (hv : ∀ v ∈ sf.variableDecls, isFunctionInit v.init = false) :
    extractFunctions sf fp = [] := by
  unfold extractFunctions
  rw [hf, hc]
  simp only [List.map_nil, List.nil_append, List.flatMap_nil, List.append_nil]
  rw [List.filterMap_eq_nil_iff]
  intro v hvmem
  have hvi := hv v hvmem
  cases hinit : v.init with
  | none => rfl
  | some i =>
    cases i with
    | arrowFunction fn => rw [hinit] at hvi; simp [isFunctionInit] at hvi
    | functionExpression fn => rw [hinit] at hvi; simp [isFunctionInit] at hvi
    | objectLiteral props => rfl
    | otherInit => rfl

/-- Witness for the amended C2 theorem at the `config` fixture. -/
theorem C2_object_literal_bindings_yield_nothing_witness :
    (configObjectFixture.functions = [] ∧ configObjectFixture.classes = [] ∧
        ∀ v ∈ configObjectFixture.variableDecls, isFunctionInit v.init = false) ∧
      extractFunctions configObjectFixture "src/config.ts" = [] :=
  ⟨⟨by decide, by decide, by decide⟩,
    C2_object_literal_bindings_yield_nothing configObjectFixture "src/config.ts"
      (by decide) (by decide) (by decide)⟩

/-! ## Claim C3 -/

/-- C3: call-flow tracing terminates on every registry (`traceFlow` is a
total function whose recursion is bounded by the source's depth guard); a
name revisited within the current path is reported as circular and never
re-expanded, over all inputs (first conjunct); and the visited set is
per-path, not global: on the cycle `a → b → a` the trace ends at the
circular marker for the second occurrence of `a`, while on the diamond
`a → b → d`, `a → c → d` the node `d` is expanded independently on both
branches. -/
theorem C3_flow_termination_and_cycles :
    (∀ (reg : Registry) (f : FunctionInfo) (budget : Nat) (v : List String) (p : String),
        v.contains f.name = true → traceFlow reg f budget v p = [.circular p f.name]) ∧
    cmdFlow regCycleFixture "a" 3 =
      some [.node "" "a" "f.ts" 1, .edge "" "└→" "b", .node "  " "b" "f.ts" 5,
        .edge "  " "└→" "a", .circular "    " "a"] ∧
    cmdFlow regDiamondFixture "a" 3 =
      some [.node "" "a" "f.ts" 1, .edge "" "├→" "b", .node "│ " "b" "f.ts" 5,
        .edge "│ " "└→" "d", .node "│   " "d" "f.ts" 13,
        .edge "" "└→" "c", .node "  " "c" "f.ts" 9,
        .edge "  " "└→" "d", .node "    " "d" "f.ts" 13] := by
  refine ⟨?_, by decide, by decide⟩
  intro reg f budget v p h
  cases budget with
  | zero =>
    simp only [traceFlow]
    rw [if_pos h]
  | succ b =>
    simp only [traceFlow]
    rw [if_pos h]

/-- Witness for C3 at a concrete path containing the current function. -/
theorem C3_flow_termination_and_cycles_witness :
    List.contains ["a", "b"] "a" = true ∧
      traceFlow regCycleFixture aCycFn 1 ["a", "b"] "    " =
        [.circular "    " "a"] :=
  ⟨by decide,
    C3_flow_termination_and_cycles.1 regCycleFixture aCycFn 1 ["a", "b"] "    " (by decide)⟩

/-! ## Claim C4 -/

/-- C4: a callee name lies in `projectCallsOf` exactly when it is one of
the record's calls and some registry record bears that name; on the
fixture where `alpha` calls the project-defined `beta` and the external
`fetch`, the result is `["beta"]`, of length 1. -/
theorem C4_projectCallsOf_membership :
    (∀ (reg : Registry) (f : FunctionInfo) (c : String),
        c ∈ projectCallsOf reg f ↔ c ∈ f.calls ∧ ∃ g ∈ functionsValues reg, g.name = c) ∧
    projectCallsOf regDepsFixture alphaFn = ["beta"] := by
  refine ⟨?_, by decide⟩
  intro reg f c
  simp [projectCallsOf, List.mem_filter, List.find?_isSome, beq_iff_eq]

/-! ## Claim C5 -/

/-- Per-node guarantee of the external parser: ordered line bounds. -/
def astNodeWf (n : AstNode) : Prop := n.startLine ≤ n.endLine

instance (n : AstNode) : Decidable (astNodeWf n) :=
  inferInstanceAs (Decidable (n.startLine ≤ n.endLine))

/-- Well-formedness of a parsed file: every node handed to the extractor
has ordered line bounds. -/
def sourceFileWf (sf : SourceFileAst) : Prop :=
  (∀ n ∈ sf.functions, astNodeWf n) ∧ (∀ v ∈ sf.variableDecls, astNodeWf v.node) ∧
    ∀ c ∈ sf.classes,
      (∀ n ∈ c.constructorDecls, astNodeWf n) ∧ (∀ n ∈ c.methods, astNodeWf n) ∧
        (∀ n ∈ c.getters, astNodeWf n) ∧ (∀ n ∈ c.setters, astNodeWf n)

instance (sf : SourceFileAst) : Decidable (sourceFileWf sf) := by
  unfold sourceFileWf
  infer_instance

theorem extractFunctionData_wf (node : AstNode) (fp ty : String) (af : Option AstNode)
    (cls : Option String) (h : node.startLine ≤ node.endLine) :
    (extractFunctionData node fp ty af cls).line ≤ (extractFunctionData node fp ty af cls).endLine ∧
      (extractFunctionData node fp ty af cls).size =
        (extractFunctionData node fp ty af cls).endLine
          - (extractFunctionData node fp ty af cls).line + 1 :=
  ⟨h, rfl⟩

/-- C5: every record produced by extraction from a well-formed parsed file
has `endLine ≥ line` and `size = endLine - line + 1`. -/
theorem C5_extraction_line_invariants (sf : SourceFileAst) (fp : String)
    (hwf : sourceFileWf sf) :
    ∀ r ∈ extractFunctions sf fp, r.line ≤ r.endLine ∧ r.size = r.endLine - r.line + 1 := by
  intro r hr
  obtain ⟨h1, h2, h3⟩ := hwf
  unfold extractFunctions at hr
  simp only [List.mem_append, List.mem_map, List.mem_filterMap, List.mem_flatMap] at hr
  rcases hr with (hr | hr) | hr
  · obtain ⟨n, hn, rfl⟩ := hr
    exact extractFunctionData_wf n fp "function" none none (h1 n hn)
  · obtain ⟨v, hv, hmatch⟩ := hr
    have hwfv := h2 v hv
    cases hinit : v.init with
    | none => rw [hinit] at hmatch; simp at hmatch
    | some i =>
      cases i with
      | arrowFunction fn =>
        rw [hinit] at hmatch
        simp only [Option.some.injEq] at hmatch
        subst hmatch
        exact extractFunctionData_wf v.node fp "arrow" (some fn) none hwfv
      | functionExpression fn =>
        rw [hinit] at hmatch
        simp only [Option.some.injEq] at hmatch
        subst hmatch
        exact extractFunctionData_wf v.node fp "arrow" (some fn) none hwfv
      | objectLiteral props => rw [hinit] at hmatch; simp at hmatch
      | otherInit => rw [hinit] at hmatch; simp at hmatch
  · obtain ⟨c, hc, hrc⟩ := hr
    obtain ⟨hcc, hcm, hcg, hcs⟩ := h3 c hc
    rcases hrc with ((⟨n, hn, rfl⟩ | ⟨n, hn, rfl⟩) | ⟨n, hn, rfl⟩) | ⟨n, hn, rfl⟩
    · exact extractFunctionData_wf n fp "constructor" none c.name (hcc n hn)
    · exact extractFunctionData_wf n fp "method" none c.name (hcm n hn)
    · exact extractFunctionData_wf n fp "getter" none c.name (hcg n hn)
    · exact extractFunctionData_wf n fp "setter" none c.name (hcs n hn)

/-- Witness for C5 at the one-function fixture. -/
theorem C5_extraction_line_invariants_witness :
    sourceFileWf tinyFixture ∧
      ∀ r ∈ extractFunctions tinyFixture "src/u.ts",
        r.line ≤ r.endLine ∧ r.size = r.endLine - r.line + 1 :=
  ⟨by decide, C5_extraction_line_invariants tinyFixture "src/u.ts" (by decide)⟩

/-! ## Claim C6 -/

/-- C6: when the pattern compiles as a case-insensitive regex, `find`
filters the registry by the compiled test and restores the registry; when
compilation fails, `find` emits the invalid-regex warning, falls back to
case-insensitive substring matching over function names — so the invalid
pattern is never silently misread as matching nothing — completes without
failing, and likewise restores the registry. -/
theorem C6_find_invalid_regex_fallback (engine : RegexEngine) (reg : Registry)
    (pattern : String) (hk : nodupKeys reg) :
    (engine.compile pattern = none →
      cmdFind engine reg pattern =
        ({ warned := true
           displayed := (functionsValues reg).filter
             (fun f => strIncludes (lowerStr f.name) (lowerStr pattern)) }, reg)) ∧
    (∀ test, engine.compile pattern = some test →
      cmdFind engine reg pattern =
        ({ warned := false
           displayed := (functionsValues reg).filter (fun f => test f.name) }, reg)) := by
  constructor
  · intro h
    have hstep : cmdFind engine reg pattern =
        ({ warned := true
           displayed := cmdListFiltered
             (reg.foldl (fun acc p =>
                if strIncludes (lowerStr p.2.name) (lowerStr pattern) then mapSet acc p.1 p.2
                else acc) [])
             { exports := false, module := none } }, restoreAll reg) := by
      unfold cmdFind
      rw [h]
    rw [hstep]
    have hfold := foldl_mapSet_filter
      (fun p => strIncludes (lowerStr p.2.name) (lowerStr pattern)) reg [] (by simp) hk
    simp only [] at hfold
    rw [hfold, restoreAll_eq_self reg hk]
    simp only [cmdListFiltered, List.nil_append]
    exact congrArg₂ _ (congrArg _ (congrArg₂ _ rfl
      (functionsValues_filter reg (fun f => strIncludes (lowerStr f.name) (lowerStr pattern))))) rfl
  · intro test h
    have hstep : cmdFind engine reg pattern =
        ({ warned := false
           displayed := cmdListFiltered
             (reg.foldl (fun acc p => if test p.2.name then mapSet acc p.1 p.2 else acc) [])
             { exports := false, module := none } }, restoreAll reg) := by
      unfold cmdFind
      rw [h]
    rw [hstep]
    have hfold := foldl_mapSet_filter (fun p => test p.2.name) reg [] (by simp) hk
    simp only [] at hfold
    rw [hfold, restoreAll_eq_self reg hk]
    simp only [cmdListFiltered, List.nil_append]
    exact congrArg₂ _ (congrArg _ (congrArg₂ _ rfl
      (functionsValues_filter reg (fun f => test f.name)))) rfl

/-- Witness for C6: the unbalanced pattern `(` fails to compile, the
warning fires, substring matching finds nothing containing `(`, and the
registry survives intact. -/
theorem C6_find_invalid_regex_fallback_witness :
    nodupKeys regFindFixture ∧
      cmdFind jsRegexEngineI regFindFixture "(" =
        ({ warned := true, displayed := [] }, regFindFixture) := by
  refine ⟨by decide, ?_⟩
  have h := (C6_find_invalid_regex_fallback jsRegexEngineI regFindFixture "(" (by decide)).1 rfl
  rw [h]
  decide

/-! ## Claim C7 -/

/-- C7 counterexample: under part_002's matching — `new RegExp(pattern,
'i')` — the pattern `^use` matches `Usekey` as well, because the `i` flag
compares case-insensitively, so `find` displays the `Usekey` record. -/
theorem C7_usekey_is_matched :
    usekeyFn ∈ (cmdFind jsRegexEngineI regFindFixture "^use").1.displayed := by
  decide

/-- C7 amended: `find "^use"` matches `useAuth` and `useForm` and also
`Usekey`: case-insensitive anchored matching accepts every name beginning
with any casing of `use`. -/
theorem C7_find_caret_use_matches :
    cmdFind jsRegexEngineI regFindFixture "^use" =
      ({ warned := false, displayed := [useAuthFn, useFormFn, usekeyFn] }, regFindFixture) := by
  decide

/-! ## Claim C8 -/

/-- C8 counterexample: the part_002 complexity — distinct outgoing call
count plus `floor(line-span / 10)` — is 0 on a two-line function with no
calls, violating the claimed lower bound of 1. -/
theorem C8_alternate_complexity_zero :
    ¬ 1 ≤ (extractFunctionData tinyFnNode "src/u.ts" "function" none none).complexity := by
  decide

/-- C8 amended: the branching-construct formula (cli.ts
`calculateComplexity`) always yields at least 1 — it starts from the
baseline 1 and only increments — both as a function of the body and on
every record of the cli.ts variant; the alternate part_002 formula is only
nonnegative and reaches 0, e.g. on `tinyFnNode`. -/
theorem C8_complexity_lower_bounds :
    (∀ body : List DescNode, 1 ≤ calculateComplexity body) ∧
    (∀ (node : AstNode) (fp ty : String) (af : Option AstNode) (cls : Option String),
        1 ≤ (extractFunctionDataV1 node fp ty af cls).complexity) ∧
    (extractFunctionData tinyFnNode "src/u.ts" "function" none none).complexity = 0 := by
  refine ⟨fun body => le_foldl_complexity body 1, ?_, by decide⟩
  intro node fp ty af cls
  exact le_foldl_complexity (af.getD node).body 1

/-! ## Claim C9 -/

/-- C9 counterexample: extracting a class with a constructor — a construct
exposing no identifier — emits a record named `anonymous` (with id
`src/k.ts:Widget.anonymous`), so placeholder-named records do reach the
registry instead of being skipped. -/
theorem C9_placeholder_record_emitted :
    (extractFunctions widgetClassFixture "src/k.ts").map (fun r => r.name) = ["anonymous"] := by
  decide

/-- C9 amended: a construct reached by extraction whose node exposes no
name is not skipped: `extractFunctionData` emits it under the fixed
placeholder name `anonymous`. -/
theorem C9_unnamed_gets_placeholder (node : AstNode) (fp ty : String)
    (af : Option AstNode) (cls : Option String) (h : node.getName = none) :
    (extractFunctionData node fp ty af cls).name = "anonymous" := by
  simp [extractFunctionData, h]

/-- Witness for C9 at the constructor fixture. -/
theorem C9_unnamed_gets_placeholder_witness :
    widgetCtorNode.getName = none ∧
      (extractFunctionData widgetCtorNode "src/k.ts" "constructor" none
          (some "Widget")).name = "anonymous" :=
  ⟨rfl, C9_unnamed_gets_placeholder widgetCtorNode "src/k.ts" "constructor" none
      (some "Widget") rfl⟩

/-! ## Claim C10 -/

/-- C10: `find` — the only query command that writes to the registry map
at all (every other query command in both variants only reads it) —
restores the registry exactly: after either variant completes, the
registry equals its pre-invocation contents, for every engine, pattern and
duplicate-free registry, on both the regex path and the fallback path. -/
theorem C10_find_restores_registry (engine : RegexEngine) (reg : Registry)
    (pattern : String) (hk : nodupKeys reg) :
    (cmdFind engine reg pattern).2 = reg ∧ (cmdFindV1 reg pattern).2 = reg := by
  constructor
  · unfold cmdFind
    cases h : engine.compile pattern <;> simp [restoreAll_eq_self reg hk]
  · unfold cmdFindV1
    simp [restoreAll_eq_self reg hk]

/-- Witness for C10 at the `find` fixture. -/
theorem C10_find_restores_registry_witness :
    nodupKeys regFindFixture ∧
      (cmdFind jsRegexEngineI regFindFixture "^use").2 = regFindFixture :=
  ⟨by decide,
    (C10_find_restores_registry jsRegexEngineI regFindFixture "^use" (by decide)).1⟩

end FOS
